import Mathlib

/-
Verification of the rauk WCET-measurement tool against its specification.

This file shallowly embeds the parts of the program that the claims touch:

* `src/analysis/analysis.rs` — the trace builder (`wcet_analysis` / `wcet_rec`):
  breakpoint enums, the `Trace` tree and the recursive fold from a linear
  sample list to a trace forest.
* `src/analyze/analysis.rs` and `src/analyze/data.rs` — the schedulability
  analyzer: `blocking_time`, `max_time_hold_resource`, `preemption`,
  `preemption_rec`, `get_priorites`, `get_task_resources`, `pre_analysis`,
  and `run_analysis` from `src/analyze/mod.rs`.
* `src/measure/dwarf/types.rs` — `Subprogram::address_in_range` and
  `Subroutine::range_from_address`.
* `src/measure/hardware.rs` — the measurement-loop dispatch `handle_breakpoint`.

Modelling conventions: `u8`/`u32`/`u64` values are embedded as `Nat` (the only
arithmetic the claims depend on stays far from the wrap-around range, and where
a subtraction appears the relevant values satisfy the no-underflow side
conditions); Rust `Vec` push/pop at the back is embedded as a Lean `List`
consumed at the head, keeping the element order of consumption; fallible code
returns `Except`; a Rust panic (a `.unwrap()` on `None`) is embedded as a
distinguished `Except` error constructor so that "returns an error" and
"panics" stay distinguishable.  Rust field `end` is rendered as the quoted
identifier `«end»` because `end` is a Lean keyword.
-/

namespace Rauk

/-! ## Breakpoint enums, from src/analysis/analysis.rs -/

/-- Entry breakpoints (`enum Entry`). The numeric discriminants 2, 3, 4 of the
Rust enum are exposed through `Entry.code`. -/
inductive Entry where
  | HardwareTaskStart
  | ResourceLockStart
  | SoftwareTaskStart
deriving DecidableEq, Repr

/-- Discriminant of `Entry` (the `as u32` cast in the Rust source). -/
def Entry.code : Entry → Nat
  | .HardwareTaskStart => 2
  | .ResourceLockStart => 3
  | .SoftwareTaskStart => 4

/-- Exit breakpoints (`enum Exit`), discriminants 251, 252, 253. -/
inductive Exit where
  | SoftwareTaskEnd
  | ResourceLockEnd
  | HardwareTaskEnd
deriving DecidableEq, Repr

/-- Discriminant of `Exit` (the `as u32` cast in the Rust source). -/
def Exit.code : Exit → Nat
  | .SoftwareTaskEnd => 251
  | .ResourceLockEnd => 252
  | .HardwareTaskEnd => 253

/-- Auxiliary breakpoints (`enum Other` of src/analysis/analysis.rs). -/
inductive Other where
  | Default
  | InsideTask
  | Invalid
  | InsideLock
  | ReplayStart
deriving DecidableEq, Repr

/-- Tagged breakpoint (`enum Breakpoint`). -/
inductive Breakpoint where
  | Other (o : Other)
  | Entry (e : Entry)
  | Exit (x : Exit)
deriving DecidableEq, Repr

/-- Rust `Breakpoint::is_entry`. -/
def Breakpoint.is_entry : Breakpoint → Bool
  | .Entry _ => true
  | _ => false

/-- Rust `Breakpoint::is_exit`. -/
def Breakpoint.is_exit : Breakpoint → Bool
  | .Exit _ => true
  | _ => false

/-- Rust `Breakpoint::is_other`. -/
def Breakpoint.is_other : Breakpoint → Bool
  | .Other _ => true
  | _ => false

/-! ## Trace trees, from src/analysis/analysis.rs -/

/-- Kind of a trace node (`enum TraceType`). -/
inductive TraceType where
  | SoftwareTask
  | HardwareTask
  | ResourceLock
deriving DecidableEq, Repr

/-- Rust `impl From<Entry> for TraceType` (named `ofEntry` since `from` is a
Lean keyword). -/
def TraceType.ofEntry : Entry → TraceType
  | .SoftwareTaskStart => .SoftwareTask
  | .HardwareTaskStart => .HardwareTask
  | .ResourceLockStart => .ResourceLock

/-- Trace tree node (`struct Trace`), with fields in source order:
name, ttype, start, inner, end. -/
inductive Trace where
  | mk (name : String) (ttype : TraceType) (start : Nat) (inner : List Trace)
      («end» : Nat)
deriving Repr

/-- Projection for the `name` field of `Trace`. -/
def Trace.name : Trace → String
  | .mk n _ _ _ _ => n

/-- Projection for the `ttype` field of `Trace`. -/
def Trace.ttype : Trace → TraceType
  | .mk _ t _ _ _ => t

/-- Projection for the `start` field of `Trace`. -/
def Trace.start : Trace → Nat
  | .mk _ _ s _ _ => s

/-- Projection for the `inner` field of `Trace`. -/
def Trace.inner : Trace → List Trace
  | .mk _ _ _ i _ => i

/-- Projection for the `end` field of `Trace`. -/
def Trace.«end» : Trace → Nat
  | .mk _ _ _ _ e => e

mutual

/-- Decidable equality for `Trace` (the automatic derivation does not handle
the nested `List Trace` argument). -/
def Trace.decEq : (a b : Trace) → Decidable (a = b)
  | .mk n1 t1 s1 i1 e1, .mk n2 t2 s2 i2 e2 =>
    have hi : Decidable (i1 = i2) := Trace.decEqList i1 i2
    decidable_of_iff (n1 = n2 ∧ t1 = t2 ∧ s1 = s2 ∧ i1 = i2 ∧ e1 = e2)
      (by rw [Trace.mk.injEq])

/-- Decidable equality for lists of `Trace`. -/
def Trace.decEqList : (a b : List Trace) → Decidable (a = b)
  | [], [] => isTrue rfl
  | [], _ :: _ => isFalse (by simp)
  | _ :: _, [] => isFalse (by simp)
  | x :: xs, y :: ys =>
    match Trace.decEq x y, Trace.decEqList xs ys with
    | isTrue h1, isTrue h2 => isTrue (by rw [h1, h2])
    | isFalse h1, _ => isFalse (by simp [h1])
    | _, isFalse h2 => isFalse (by simp [h2])

end

instance : DecidableEq Trace := Trace.decEq

instance {ε α : Type} [DecidableEq ε] [DecidableEq α] : DecidableEq (Except ε α)
  | .ok a, .ok b => decidable_of_iff (a = b) (by simp)
  | .error a, .error b => decidable_of_iff (a = b) (by simp)
  | .ok _, .error _ => isFalse (by simp)
  | .error _, .ok _ => isFalse (by simp)

/-! ## The trace builder, from src/analysis/analysis.rs

The Rust `wcet_analysis` reverses the sample vector and `wcet_rec` pops
samples from the back of the reversed vector, i.e. it consumes the samples in
their original order.  The embedding therefore consumes an original-order
`List` from its head.  The recursion of `wcet_rec` (whose inner `loop` calls
`wcet_rec` again on the shrinking remainder) is driven by a fuel parameter; a
distinguished `outOfFuel` error marks fuel exhaustion, and `wcet_analysis`
supplies fuel `2 * length + 2`, which the concrete evaluations below never
exhaust. -/

/-- Measurement sample: the tuple `(Breakpoint, String, u32)` of the source. -/
abbrev Sample := Breakpoint × String × Nat

/-- Errors of the trace builder.  `emptyInput` is the "Breakpoint vector is
empty" error, `scopeMismatch` the "Breakpoint scope not matching!" error,
`unsupported` the "Unsupported breakpoint inside analysis" error.
`panicEmptyStack` embeds the Rust panic of `stack.pop().unwrap()` when the
scope stack is empty (a panic, not an `Err`, in the source).  `outOfFuel` is
an artifact of the fuel-driven embedding only. -/
inductive WcetError where
  | emptyInput
  | scopeMismatch (entryCode exitCode : Nat)
  | unsupported (o : Other)
  | panicEmptyStack
  | outOfFuel
deriving DecidableEq, Repr

mutual

/-- Embedding of `wcet_rec`.  Returns the emitted traces, the consumed
sample (returned to the caller exactly as in the source), the remaining
samples and the remaining scope stack. -/
def wcet_rec : Nat → List Sample → List Entry →
    Except WcetError (List Trace × Sample × List Sample × List Entry)
  | 0, _, _ => .error .outOfFuel
  | fuel + 1, bkpts, stack =>
    match bkpts with
    | [] => .error .emptyInput
    | (bkpt, name, cyccnt) :: rest =>
      match bkpt with
      | .Entry e =>
        -- push the entry on the scope stack, then run the inner loop
        match wcet_rec_loop fuel rest (e :: stack) [] with
        | .error err => .error err
        | .ok (inner, «end», rest1, stack1) =>
          let trace := Trace.mk name (TraceType.ofEntry e) cyccnt inner «end»
          .ok ([trace], (bkpt, name, cyccnt), rest1, stack1)
      | .Exit x =>
        -- the source pops the scope stack with `.unwrap()`: an empty stack
        -- is a panic, not an error return
        match stack with
        | [] => .error .panicEmptyStack
        | top :: stack1 =>
          if top.code + x.code = 255 then
            .ok ([], (bkpt, name, cyccnt), rest, stack1)
          else
            .error (.scopeMismatch top.code x.code)
      | .Other o => .error (.unsupported o)

/-- Embedding of the inner `loop` of the `Entry` arm of `wcet_rec`: repeatedly
recurse, appending the returned subtrees to `inner`; stop when the returned
sample is an Exit or the remainder is empty.  The source writes the stop test
as `last.is_exit() && prev.is_exit()` after assigning `prev = last.clone()`,
so `prev` always equals `last` at the test; the embedding keeps that shape. -/
def wcet_rec_loop : Nat → List Sample → List Entry → List Trace →
    Except WcetError (List Trace × Nat × List Sample × List Entry)
  | 0, _, _, _ => .error .outOfFuel
  | fuel + 1, bkpts, stack, inner =>
    match wcet_rec fuel bkpts stack with
    | .error err => .error err
    | .ok (i, (last, _, e), rest1, stack1) =>
      let inner1 := inner ++ i
      let prev := last
      let «end» := e
      if (last.is_exit && prev.is_exit) || rest1.isEmpty then
        .ok (inner1, «end», rest1, stack1)
      else
        wcet_rec_loop fuel rest1 stack1 inner1

end

/-- Embedding of `wcet_analysis`.  The source reverses `bkpts` and lets
`wcet_rec` pop from the back; the embedding passes the original-order list
(the double reversal cancels) and supplies enough fuel for the samples. -/
def wcet_analysis (bkpts : List Sample) : Except WcetError (List Trace) :=
  match wcet_rec (2 * bkpts.length + 2) bkpts [] with
  | .error err => .error err
  | .ok (traces, _, _, _) => .ok traces

/-! ## Concrete sample lists for the scenario claims -/

/-- Sample list of Scenario B of the specification (nested locks). -/
def scenarioB : List Sample :=
  [ (.Entry .SoftwareTaskStart, "t1", 0),
    (.Entry .ResourceLockStart, "r1", 5),
    (.Entry .ResourceLockStart, "r2", 15),
    (.Entry .ResourceLockStart, "r3", 25),
    (.Exit .ResourceLockEnd, "r3", 35),
    (.Exit .ResourceLockEnd, "r2", 45),
    (.Exit .ResourceLockEnd, "r1", 55),
    (.Exit .SoftwareTaskEnd, "t1", 60) ]

/-- Trace tree claimed for Scenario B by the specification: root `t1`
spanning `[5,60]`. -/
def scenarioB_claimed : Trace :=
  Trace.mk "t1" .SoftwareTask 5
    [Trace.mk "r1" .ResourceLock 5
      [Trace.mk "r2" .ResourceLock 15
        [Trace.mk "r3" .ResourceLock 25 [] 35] 45] 55] 60

/-- Trace tree the builder actually produces for Scenario B: root `t1`
spanning `[0,60]` (the root's `start` is the cycle count of its own entry
sample, 0), matching the repository's own test
`test_analysis_nested_locks`. -/
def scenarioB_actual : Trace :=
  Trace.mk "t1" .SoftwareTask 0
    [Trace.mk "r1" .ResourceLock 5
      [Trace.mk "r2" .ResourceLock 15
        [Trace.mk "r3" .ResourceLock 25 [] 35] 45] 55] 60

/-- Sample list with a task entry, one complete nested lock, and no closing
task exit: the inner loop of `wcet_rec` stops on the exhausted sample list
and closes the `t1` node with `end` equal to the `start` of its child. -/
def unterminated_task_input : List Sample :=
  [ (.Entry .SoftwareTaskStart, "t1", 0),
    (.Entry .ResourceLockStart, "r1", 5),
    (.Exit .ResourceLockEnd, "r1", 10) ]

/-- Child node produced for `unterminated_task_input`. -/
def unterminated_task_child : Trace := Trace.mk "r1" .ResourceLock 5 [] 10

/-- Root node produced for `unterminated_task_input`: `end = 5` although its
child ends at 10. -/
def unterminated_task_root : Trace :=
  Trace.mk "t1" .SoftwareTask 0 [unterminated_task_child] 5

/-- Sample list with two Entry samples and one Exit sample: a balanced first
tree followed by a trailing Entry that `wcet_analysis` never looks at. -/
def trailing_entry_input : List Sample :=
  [ (.Entry .HardwareTaskStart, "t1", 0),
    (.Exit .HardwareTaskEnd, "t1", 10),
    (.Entry .HardwareTaskStart, "t2", 20) ]

/-! ## The schedulability analyzer, from src/analyze/{data.rs, analysis.rs, mod.rs}

The analyzer's `Trace` type (`crate::measure::Trace`, whose defining module is
not among the sources) has exactly the fields of the `Trace` embedded above
(per the specification's data model and output format), so the one `Trace`
type is shared.  `HashMap<String, _>` is embedded as an association list with
`map_get` / `map_insert` (insert replaces an existing key's value), and
`HashSet<String>` as a duplicate-free `List String` with `set_insert`;
the computed results the claims mention (maxima, lookups) do not depend on
hash iteration order.  The `f32` load factor is not modelled (no claim
mentions it); all other `AnalysisResult` fields are. -/

/-- Lookup in an association list, embedding `HashMap::get`. -/
def map_get {α : Type} : List (String × α) → String → Option α
  | [], _ => none
  | (k1, v1) :: rest, k => if k1 = k then some v1 else map_get rest k

/-- Insert in an association list, embedding `HashMap::insert` (replaces the
value if the key is present). -/
def map_insert {α : Type} : List (String × α) → String → α → List (String × α)
  | [], k, v => [(k, v)]
  | (k1, v1) :: rest, k, v =>
    if k1 = k then (k, v) :: rest else (k1, v1) :: map_insert rest k v

/-- Insert in a set, embedding `HashSet::insert`. -/
def set_insert (s : List String) (x : String) : List String :=
  if x ∈ s then s else s ++ [x]

/-- Map task-or-resource name to priority (`type Priorities`). -/
abbrev Priorities := List (String × Nat)

/-- Map task name to the set of resource names it locks
(`type TaskResources`). -/
abbrev TaskResources := List (String × List String)

/-- Task declaration (`struct Task` of src/analyze/data.rs). -/
structure Task where
  name : String
  priority : Nat
  deadline : Nat
  inter_arrival : Nat
  trace : Option Trace
deriving DecidableEq, Repr

/-- Map task name to task (`type TaskMap`). -/
abbrev TaskMap := List (String × Task)

/-- Analysis output row (`struct AnalysisResult` of src/analyze/mod.rs),
without the unmodelled `f32` field `load_factor`. -/
structure AnalysisResult where
  name : String
  response_time : Nat
  wcet : Nat
  blocking_time : Nat
  preemption_time : Nat
deriving DecidableEq, Repr

/-- Errors and panics of the analyzer.  `deadlineExceeded` is the
"Response time is larger than the deadline!" error; `panicNoTrace` embeds the
Rust panic of `task.trace.as_ref().unwrap()` on a task without a trace;
`outOfFuel` is an artifact of the fuel-driven embedding of the
`preemption_rec` recursion only. -/
inductive AnalyzeError where
  | deadlineExceeded
  | panicNoTrace
  | outOfFuel
deriving DecidableEq, Repr

/-- Embedding of `wcet` (src/analyze/analysis.rs): `trace.end - trace.start`,
with the `.unwrap()` panic on a missing trace made explicit. -/
def wcet (task : Task) : Except AnalyzeError Nat :=
  match task.trace with
  | some t => .ok (t.«end» - t.start)
  | none => .error .panicNoTrace

mutual

/-- Embedding of `max_time_hold_resource`: the largest `end - start` among
the nodes named `res_name` anywhere in the trace tree. -/
def max_time_hold_resource (trace : Trace) (res_name : String) : Nat :=
  match trace with
  | .mk name _ start inner «end» =>
    let max_time := if name = res_name then «end» - start else 0
    max_time_hold_resource_list inner res_name max_time

/-- Inner loop of `max_time_hold_resource` over `trace.inner`. -/
def max_time_hold_resource_list (traces : List Trace) (res_name : String)
    (max_time : Nat) : Nat :=
  match traces with
  | [] => max_time
  | t :: ts =>
    let time := max_time_hold_resource t res_name
    max_time_hold_resource_list ts res_name
      (if time > max_time then time else max_time)

end

/-- Inner loop (over `tasks`) of `blocking_time`, for one resource `r`:
Rust-side, `for t in tasks { if let (Some(t_prio), Some(r_ceil)) = ... }`. -/
def blocking_time_tasks (r : String) (tasks : List Task) (ip : Priorities)
    (task_prio : Nat) (max_block_time : Nat) : Except AnalyzeError Nat :=
  match tasks with
  | [] => .ok max_block_time
  | t :: ts =>
    match map_get ip t.name, map_get ip r with
    | some t_prio, some r_ceil =>
      if t_prio < task_prio ∧ r_ceil ≥ task_prio then
        match t.trace with
        | some trc =>
          let time := max_time_hold_resource trc r
          blocking_time_tasks r ts ip task_prio
            (if time > max_block_time then time else max_block_time)
        | none => .error .panicNoTrace
      else blocking_time_tasks r ts ip task_prio max_block_time
    | _, _ => blocking_time_tasks r ts ip task_prio max_block_time

/-- Outer loop (over the task's resource set) of `blocking_time`. -/
def blocking_time_resources (rs : List String) (tasks : List Task)
    (ip : Priorities) (task_prio : Nat) (max_block_time : Nat) :
    Except AnalyzeError Nat :=
  match rs with
  | [] => .ok max_block_time
  | r :: rest =>
    match blocking_time_tasks r tasks ip task_prio max_block_time with
    | .error err => .error err
    | .ok m1 => blocking_time_resources rest tasks ip task_prio m1

/-- Embedding of `blocking_time` (src/analyze/analysis.rs).  Note that the
source iterates over the resource set of `task` itself
(`tr.get(&task.name)`), not over the resource sets of the lower-priority
tasks. -/
def blocking_time (task : Task) (tasks : List Task) (ip : Priorities)
    (tr : TaskResources) : Except AnalyzeError Nat :=
  let task_prio := (map_get ip task.name).getD 0
  let resources := (map_get tr task.name).getD []
  blocking_time_resources resources tasks ip task_prio 0

/-- Ceiling division, embedding `(prev_rt as f32 / a).ceil() as u32`.  For
the magnitudes in this analysis (well below `2^24`, and a nonzero divisor)
the `f32` computation is exact and agrees with rational ceiling division. -/
def ceil_div (n d : Nat) : Nat := (n + d - 1) / d

/-- Summation loop of `preemption_rec` (eq. 7.22): adds
`wcet(t) * ceil(prev_rt / inter_arrival(t))` for every task of strictly
higher priority. -/
def preemption_sum (tasks : List Task) (ip : Priorities) (task_prio : Nat)
    (prev_rt : Nat) (current_rt : Nat) : Except AnalyzeError Nat :=
  match tasks with
  | [] => .ok current_rt
  | t :: ts =>
    match map_get ip t.name with
    | some t_prio =>
      if t_prio > task_prio then
        match wcet t with
        | .error err => .error err
        | .ok w =>
          let calcv := w * ceil_div prev_rt t.inter_arrival
          preemption_sum ts ip task_prio prev_rt (current_rt + calcv)
      else preemption_sum ts ip task_prio prev_rt current_rt
    | none => preemption_sum ts ip task_prio prev_rt current_rt

/-- Body of one `preemption_rec` iteration: the value of `current_rt` after
the summation loop, starting from `wcet(task) + blocking_time(...)`. -/
def current_rt_of (task : Task) (tasks : List Task) (ip : Priorities)
    (tr : TaskResources) (prev_rt : Nat) : Except AnalyzeError Nat :=
  match wcet task with
  | .error err => .error err
  | .ok w =>
    match blocking_time task tasks ip tr with
    | .error err => .error err
    | .ok b =>
      let task_prio := (map_get ip task.name).getD 0
      preemption_sum tasks ip task_prio prev_rt (w + b)

/-- Embedding of `preemption_rec` (src/analyze/analysis.rs), the
response-time recurrence: recompute `current_rt`, fail with
`deadlineExceeded` when it passes the deadline, stop at the fixed point,
otherwise iterate.  The Rust recursion has no fuel; here fuel drives the
recursion and `preemption` supplies `deadline + 2`, which suffices because
the iterates strictly increase and error out past the deadline. -/
def preemption_rec : Nat → Task → List Task → Priorities → TaskResources →
    Nat → Except AnalyzeError Nat
  | 0, _, _, _, _, _ => .error .outOfFuel
  | fuel1 + 1, task, tasks, ip, tr, prev_rt =>
    match current_rt_of task tasks ip tr prev_rt with
    | .error err => .error err
    | .ok current_rt =>
      if current_rt > task.deadline then .error .deadlineExceeded
      else if current_rt = prev_rt then .ok current_rt
      else preemption_rec fuel1 task tasks ip tr current_rt

/-- Embedding of `preemption`: run the recurrence from
`base = wcet + blocking_time` and return `converged - base`. -/
def preemption (task : Task) (tasks : List Task) (ip : Priorities)
    (tr : TaskResources) : Except AnalyzeError Nat :=
  match wcet task with
  | .error err => .error err
  | .ok w =>
    match blocking_time task tasks ip tr with
    | .error err => .error err
    | .ok b =>
      let base := w + b
      match preemption_rec (task.deadline + 2) task tasks ip tr base with
      | .error err => .error err
      | .ok premp => .ok (premp - base)

/-- Loop of `run_analysis` (src/analyze/mod.rs) over the tasks; `all` is the
full task list used as the context of each per-task computation. -/
def run_analysis_loop (all : List Task) (rem : List Task) (priorities : Priorities)
    (tr : TaskResources) : Except AnalyzeError (List AnalysisResult) :=
  match rem with
  | [] => .ok []
  | task :: rest =>
    match wcet task with
    | .error err => .error err
    | .ok c =>
      match blocking_time task all priorities tr with
      | .error err => .error err
      | .ok b =>
        match preemption task all priorities tr with
        | .error err => .error err
        | .ok i =>
          let r := c + b + i
          match run_analysis_loop all rest priorities tr with
          | .error err => .error err
          | .ok res =>
            .ok (⟨task.name, r, c, b, i⟩ :: res)

/-- Embedding of `run_analysis` (src/analyze/mod.rs). -/
def run_analysis (tasks : List Task) (priorities : Priorities)
    (tr : TaskResources) : Except AnalyzeError (List AnalysisResult) :=
  run_analysis_loop tasks tasks priorities tr

/-- Embedding of `get_longest_wcet_trace` (src/analyze/data.rs): scan the
traces for the longest one whose root name matches the task. -/
def get_longest_wcet_trace_loop (task : Task) (traces : List Trace)
    (current_wcet : Option Trace) : Option Trace :=
  match traces with
  | [] => current_wcet
  | trace :: rest =>
    let next :=
      if trace.name = task.name then
        match current_wcet with
        | some w =>
          if trace.«end» - trace.start > w.«end» - w.start then some trace
          else current_wcet
        | none => some trace
      else current_wcet
    get_longest_wcet_trace_loop task rest next

/-- Embedding of `get_longest_wcet_trace`. -/
def get_longest_wcet_trace (task : Task) (traces : List Trace) : Option Trace :=
  get_longest_wcet_trace_loop task traces none

mutual

/-- Body of the `update_task_resources` loop for one trace node: insert the
node's name into the task's resource set, then descend into `trace.inner`. -/
def update_task_resources_trace (task : Task) (trace : Trace)
    (task_resources : TaskResources) : TaskResources :=
  match trace with
  | .mk tname _ _ inner _ =>
    let tr1 :=
      match map_get task_resources task.name with
      | some set => map_insert task_resources task.name (set_insert set tname)
      | none => map_insert task_resources task.name [tname]
    update_task_resources task inner tr1

/-- Embedding of `update_task_resources` (src/analyze/data.rs): insert the
name of every descendant node into the task's resource set. -/
def update_task_resources (task : Task) (traces : List Trace)
    (task_resources : TaskResources) : TaskResources :=
  match traces with
  | [] => task_resources
  | trace :: rest =>
    update_task_resources task rest
      (update_task_resources_trace task trace task_resources)

end

/-- Loop of `get_task_resources` over the traces. -/
def get_task_resources_loop (traces : List Trace) (tasks : TaskMap)
    (task_resources : TaskResources) : TaskResources :=
  match traces with
  | [] => task_resources
  | trace :: rest =>
    let tr1 :=
      match map_get tasks trace.name with
      | some task => update_task_resources task trace.inner task_resources
      | none => task_resources
    get_task_resources_loop rest tasks tr1

/-- Embedding of `get_task_resources` (src/analyze/data.rs). -/
def get_task_resources (traces : List Trace) (tasks : TaskMap) : TaskResources :=
  get_task_resources_loop traces tasks []

/-- Inner loop of `get_priorites` over one task's resource set: raise the
resource's ceiling to the task's priority. -/
def get_priorites_resources (resources : List String) (task_priority : Nat)
    (priorities : Priorities) : Priorities :=
  match resources with
  | [] => priorities
  | resource :: rest =>
    let p1 :=
      match map_get priorities resource with
      | some priority =>
        if task_priority > priority then
          map_insert priorities resource task_priority
        else priorities
      | none => map_insert priorities resource task_priority
    get_priorites_resources rest task_priority p1

/-- Loop of `get_priorites` over the tasks. -/
def get_priorites_loop (tasks : List Task) (task_resources : TaskResources)
    (priorities : Priorities) : Priorities :=
  match tasks with
  | [] => priorities
  | task :: rest =>
    let p1 := map_insert priorities task.name task.priority
    let p2 :=
      match map_get task_resources task.name with
      | some set => get_priorites_resources set task.priority p1
      | none => p1
    get_priorites_loop rest task_resources p2

/-- Embedding of `get_priorites` (src/analyze/data.rs): task names map to
their declared priorities, resource names to their SRP ceilings. -/
def get_priorites (tasks : List Task) (task_resources : TaskResources) :
    Priorities :=
  get_priorites_loop tasks task_resources []

/-- Loop of `pre_analysis` building the task map and the per-task WCET
traces. -/
def pre_analysis_loop (tasks : List Task) (traces : List Trace)
    (task_map : TaskMap) (wcet_traces : List Trace) : TaskMap × List Trace :=
  match tasks with
  | [] => (task_map, wcet_traces)
  | task :: rest =>
    let tm := map_insert task_map task.name task
    let wt :=
      match get_longest_wcet_trace task traces with
      | some trace => wcet_traces ++ [trace]
      | none => wcet_traces
    pre_analysis_loop rest traces tm wt

/-- Embedding of `pre_analysis` (src/analyze/data.rs). -/
def pre_analysis (tasks : List Task) (traces : List Trace) :
    TaskResources × Priorities × List Trace :=
  let (task_map, wcet_traces) := pre_analysis_loop tasks traces [] []
  let task_resources := get_task_resources wcet_traces task_map
  let priorities := get_priorites tasks task_resources
  (task_resources, priorities, wcet_traces)

/-- Embedding of the trace-assignment loop of `response_time_analysis`
(src/analyze/mod.rs lines 42-49): give each task the first WCET trace whose
root name matches. -/
def assign_traces (tasks : List Task) (traces : List Trace) : List Task :=
  tasks.map fun task =>
    match traces.find? (fun trace => trace.name = task.name) with
    | some trace => { task with trace := some trace }
    | none => task

/-- Pure core of `response_time_analysis` (src/analyze/mod.rs): pre-analysis,
trace assignment, then `run_analysis`. -/
def response_time_analysis_core (tasks : List Task) (traces : List Trace) :
    Except AnalyzeError (List AnalysisResult) :=
  let (t, p, wcet_traces) := pre_analysis tasks traces
  let tasks1 := assign_traces tasks wcet_traces
  run_analysis tasks1 p t

/-! ## Specification-side definitions for the blocking-time claim

These definitions follow the wording of the specification (maxima over sets
of candidate nodes), to be compared against the imperative folds embedded
from the source. -/

mutual

/-- All nodes of a trace tree (the node itself and its descendants). -/
def trace_nodes (trace : Trace) : List Trace :=
  match trace with
  | .mk name ttype start inner «end» =>
    Trace.mk name ttype start inner «end» :: trace_nodes_list inner

/-- All nodes of a forest of trace trees. -/
def trace_nodes_list (traces : List Trace) : List Trace :=
  match traces with
  | [] => []
  | t :: ts => trace_nodes t ++ trace_nodes_list ts

end

/-- Specification-side hold time: the longest `end - start` of any node
named `r` anywhere in the trace tree, 0 when there is none. -/
def max_hold (trace : Trace) (r : String) : Nat :=
  (((trace_nodes trace).filter (fun n => n.name = r)).map
    (fun n => n.«end» - n.start)).foldr max 0

/-- Blocking-time candidates per the words of claim C3 as stated: pairs of a
task `t1` whose (declared) priority is strictly below the analyzed task's and
a resource `r` drawn from `task_resources[t1]` whose ceiling is at least the
analyzed task's priority; each contributes the longest hold of `r` in `t1`'s
trace. -/
def blocking_time_claimed (task : Task) (tasks : List Task) (ip : Priorities)
    (tr : TaskResources) : Nat :=
  (tasks.flatMap (fun t1 =>
    if t1.priority < task.priority then
      ((map_get tr t1.name).getD []).filterMap (fun r =>
        match map_get ip r, t1.trace with
        | some r_ceil, some trc =>
          if r_ceil ≥ task.priority then some (max_hold trc r) else none
        | _, _ => none)
    else [])).foldr max 0

/-- One candidate of the declarative blocking maximum: task `t` contributes
the longest hold of `r` in its trace when both priorities are mapped, `t`'s
is strictly below the analyzed task's, and `r`'s ceiling is at least the
analyzed task's. -/
def blocking_candidate (ip : Priorities) (task_prio : Nat) (r : String)
    (t : Task) : Option Nat :=
  match map_get ip t.name, map_get ip r, t.trace with
  | some t_prio, some r_ceil, some trc =>
    if t_prio < task_prio ∧ r_ceil ≥ task_prio then some (max_hold trc r)
    else none
  | _, _, _ => none

/-- Blocking-time candidates as the code computes them (amended claim): `r`
ranges over the analyzed task's own resource set `task_resources[task]`, the
priorities of the analyzed task and of the blocking candidates are read from
the priorities map (0 when the analyzed task is absent, skip when a candidate
is absent), and each admissible pair contributes the longest hold of `r` in
the lower-priority task's trace. -/
def blocking_time_spec (task : Task) (tasks : List Task) (ip : Priorities)
    (tr : TaskResources) : Nat :=
  let task_prio := (map_get ip task.name).getD 0
  let resources := (map_get tr task.name).getD []
  (resources.flatMap (fun r =>
    tasks.filterMap (blocking_candidate ip task_prio r))).foldr max 0

/-! ## Concrete data for the analyzer claims -/

/-- Task `hi` of Scenario E: priority 3, inter-arrival 100, deadline 50. -/
def c7_hi : Task := ⟨"hi", 3, 50, 100, none⟩

/-- Task `lo` of Scenario E: priority 1, inter-arrival 1000, deadline 900. -/
def c7_lo : Task := ⟨"lo", 1, 900, 1000, none⟩

/-- Measured trace of `hi`: WCET 5. -/
def c7_hi_trace : Trace := .mk "hi" .SoftwareTask 0 [] 5

/-- Measured trace of `lo`: WCET 20. -/
def c7_lo_trace : Trace := .mk "lo" .SoftwareTask 0 [] 20

/-- Scenario E task list. -/
def c7_tasks : List Task := [c7_hi, c7_lo]

/-- Scenario E trace list. -/
def c7_traces : List Trace := [c7_hi_trace, c7_lo_trace]

/-- Scenario E tasks after trace assignment. -/
def c7_tasks_assigned : List Task :=
  [⟨"hi", 3, 50, 100, some c7_hi_trace⟩, ⟨"lo", 1, 900, 1000, some c7_lo_trace⟩]

/-- Priorities map of Scenario E (as `pre_analysis` computes it). -/
def c7_priorities : Priorities := [("hi", 3), ("lo", 1)]

/-- Task-resources map of Scenario E: no resources. -/
def c7_task_resources : TaskResources := []

/-- Blocking counterexample, analyzed task: `hi`, priority 3, uses no
resources. -/
def c3_hi : Task := ⟨"hi", 3, 100, 100, some (.mk "hi" .SoftwareTask 0 [] 5)⟩

/-- Blocking counterexample: `mid`, priority 3, locks `r` for 10 cycles
(it gives `r` its ceiling 3). -/
def c3_mid : Task :=
  ⟨"mid", 3, 100, 100, some (.mk "mid" .SoftwareTask 0
    [.mk "r" .ResourceLock 0 [] 10] 10)⟩

/-- Blocking counterexample: `lo`, priority 1, locks `r` for 50 cycles. -/
def c3_lo : Task :=
  ⟨"lo", 1, 1000, 1000, some (.mk "lo" .SoftwareTask 0
    [.mk "r" .ResourceLock 0 [] 50] 60)⟩

/-- Blocking counterexample task list. -/
def c3_tasks : List Task := [c3_hi, c3_mid, c3_lo]

/-- Blocking counterexample task-resources map (as derived from the traces:
`hi` locks nothing). -/
def c3_task_resources : TaskResources := [("mid", ["r"]), ("lo", ["r"])]

/-- Blocking counterexample priorities map, with the SRP ceiling
`priority[r] = 3` contributed by `mid`. -/
def c3_priorities : Priorities := [("hi", 3), ("mid", 3), ("lo", 1), ("r", 3)]

/-- Ceiling counterexample: task `A`, priority 5, uses resource `x`. -/
def c8_taskA : Task := ⟨"A", 5, 10, 10, none⟩

/-- Ceiling counterexample: a task that shares the name `x` with the
resource, priority 2, processed after `A`. -/
def c8_taskx : Task := ⟨"x", 2, 10, 10, none⟩

/-- Ceiling counterexample task list. -/
def c8_tasks : List Task := [c8_taskA, c8_taskx]

/-- Ceiling counterexample task-resources map: `A` uses `x`. -/
def c8_task_resources : TaskResources := [("A", ["x"])]

/-- Witness data for the amended ceiling claim: only task `A`. -/
def c8w_tasks : List Task := [c8_taskA]

/-- Deadline-witness task: WCET 5 but deadline 3, so the first fixed-point
iterate already exceeds the deadline. -/
def c6w_task : Task := ⟨"t", 1, 3, 10, some (.mk "t" .SoftwareTask 0 [] 5)⟩

/-- Priorities map for the deadline witness. -/
def c6w_priorities : Priorities := [("t", 1)]

/-! ## DWARF range queries, from src/measure/dwarf/types.rs -/

/-- Embedding of `struct Subprogram`: name, demangled linkage name and the
`low_pc` / `high_pc` addresses. -/
structure Subprogram where
  name : String
  linkage_name : String
  low_pc : Nat
  high_pc : Nat
deriving DecidableEq, Repr

/-- Embedding of `Subprogram::address_in_range`: the source tests
`low_pc <= address && address <= high_pc` (both ends inclusive). -/
def Subprogram.address_in_range (s : Subprogram) (address : Nat) : Bool :=
  decide (s.low_pc ≤ address) && decide (address ≤ s.high_pc)

/-- Embedding of `struct Subroutine`: name and `(low_pc, high_pc)` ranges. -/
structure Subroutine where
  name : String
  ranges : List (Nat × Nat)
deriving DecidableEq, Repr

/-- Embedding of `Subroutine::range_from_address`: scan the ranges,
remembering the last one with `low_pc <= address && address <= high_pc`. -/
def Subroutine.range_from_address (s : Subroutine) (address : Nat) :
    Option (Nat × Nat) :=
  s.ranges.foldl
    (fun res lh => if lh.1 ≤ address ∧ address ≤ lh.2 then some lh else res)
    none

/-- Concrete subprogram for the half-open-range counterexample. -/
def c9_subprogram : Subprogram := ⟨"task1", "task1", 10, 20⟩

/-! ## The measurement-loop dispatch, from src/measure/hardware.rs

The measurement engine's breakpoint enums live in `src/measure/breakpoints.rs`,
which is not among the sources; its `OtherBreakpoint` is the one of
`src/analysis/breakpoints.rs` (present, identical discriminants) with the
variant for code 5 named `InsideHardwareRead` as in the specification's data
model.  In `handle_breakpoint` the probe interactions are abstracted: the
names resolved through the link register (`read_breakpoint_task_name`,
`read_breakpoint_lock_name`) and the vcell subroutine found by
`get_current_vcell_from_lr` enter as parameters, and the hardware-breakpoint
programming is reflected in the returned `current_hw_bkpt` value.  The
measurement vector is kept most-recent-first, so Rust's `Vec::pop` of the
last pushed sample is the head of the list. -/

namespace Hardware

/-- Auxiliary breakpoints of the measurement engine
(`enum OtherBreakpoint`). -/
inductive OtherBreakpoint where
  | Default
  | InsideTask
  | InsideHardwareRead
  | Invalid
  | InsideLock
  | ReplayStart
deriving DecidableEq, Repr

/-- Tagged breakpoint of the measurement engine (`enum Breakpoint`). -/
inductive Breakpoint where
  | Other (o : OtherBreakpoint)
  | Entry (e : Rauk.Entry)
  | Exit (x : Rauk.Exit)
deriving DecidableEq, Repr

/-- Result of one measured halt (`type MeasurementResult`). -/
abbrev MeasurementResult := Breakpoint × String × Nat

/-- Loop-control outcome of `handle_breakpoint` (`enum LoopAction`). -/
inductive LoopAction where
  | Break
  | Continue
  | Nothing
deriving DecidableEq, Repr

/-- Failure modes of `handle_breakpoint`: `panicEmptyMeasurements` embeds the
Rust panic of `measurements.pop().unwrap()` on an empty measurement list;
`noAddressRanges` is the "Subroutine has no address ranges" error. -/
inductive HwError where
  | panicEmptyMeasurements
  | noAddressRanges
deriving DecidableEq, Repr

/-- Embedding of `handle_breakpoint` (src/measure/hardware.rs): `task_name`
and `lock_name` are the names the engine resolves through the link register
for the `InsideTask` / `InsideLock` arms, `current_vcell` the subroutine
`get_current_vcell_from_lr` finds for the `InsideHardwareRead` arm.  Returns
the loop action together with the updated measurement list and hardware
breakpoint address. -/
def handle_breakpoint (bkpt : Breakpoint) (task_name lock_name : String)
    (current_vcell : Option Subroutine)
    (measurements : List MeasurementResult) (current_hw_bkpt : Nat) :
    Except HwError (LoopAction × List MeasurementResult × Nat) :=
  match bkpt with
  | .Other .ReplayStart => .ok (.Break, measurements, current_hw_bkpt)
  | .Other .InsideTask =>
    match measurements with
    | [] => .error .panicEmptyMeasurements
    | (b, _, u) :: rest => .ok (.Continue, (b, task_name, u) :: rest, current_hw_bkpt)
  | .Other .InsideLock =>
    match measurements with
    | [] => .error .panicEmptyMeasurements
    | (b, _, u) :: rest => .ok (.Continue, (b, lock_name, u) :: rest, current_hw_bkpt)
  | .Other .InsideHardwareRead =>
    match current_vcell with
    | some current_vcell1 =>
      match current_vcell1.ranges.getLast? with
      | none => .error .noAddressRanges
      | some (_, high_pc) => .ok (.Continue, measurements, high_pc)
    | none => .ok (.Continue, measurements, current_hw_bkpt)
  | _ => .ok (.Nothing, measurements, current_hw_bkpt)

end Hardware

/-! ## Claims C1, C2, C4, C5 about the trace builder -/

/-- C1 (counterexample): the claim states that on the Scenario B input the
builder returns exactly one tree whose root `t1` spans `[5,60]`; in fact the
root's `start` is 0 (the cycle count of the `t1` entry sample), so the
claimed result is not the output. -/
theorem C1_scenarioB_counterexample :
    wcet_analysis scenarioB ≠ .ok [scenarioB_claimed] := by decide

/-- C1 (amended): on the Scenario B input the trace builder succeeds and
returns exactly one trace tree: node `t1` spanning `[0,60]` whose only child
is `r1` spanning `[5,55]`, whose only child is `r2` spanning `[15,45]`,
whose only child is `r3` spanning `[25,35]` with empty inner list. -/
theorem C1_scenarioB_amended :
    wcet_analysis scenarioB = .ok [scenarioB_actual] := by decide

/-- C2: the claim states that every tree returned by a successful
`wcet_analysis` run satisfies the nesting invariants, in particular
`c.end ≤ parent.end` for every child `c`.  The code violates this: on
`unterminated_task_input` (cycle counts strictly increasing, so the sample
order is the one the measurement engine guarantees) the builder succeeds and
returns a root with `end = 5` whose child ends at `10`. -/
theorem C2_child_exceeds_parent :
    wcet_analysis unterminated_task_input = .ok [unterminated_task_root] ∧
    unterminated_task_root.«end» < unterminated_task_child.«end» := by decide

/-- C4: the claim states that a sample list with strictly more Entries than
Exits makes the builder fail.  The code violates this: on
`trailing_entry_input` (2 Entries, 1 Exit) the builder returns a trace
forest, because `wcet_analysis` stops after the first complete tree and
ignores the trailing samples. -/
theorem C4_more_entries_accepted :
    trailing_entry_input.countP (fun s => s.1.is_entry) = 2 ∧
    trailing_entry_input.countP (fun s => s.1.is_exit) = 1 ∧
    wcet_analysis trailing_entry_input =
      .ok [Trace.mk "t1" .HardwareTask 0 [] 10] := by decide

/-- C5: the claim states that an Exit sample processed on an empty scope
stack yields a `ScopeMismatch` error result.  The code instead panics: the
source pops the scope stack with `.unwrap()`, so every sample list whose
first sample is an Exit ends in a panic (embedded as the distinguished
`panicEmptyStack` outcome), not in an error return. -/
theorem C5_exit_on_empty_stack_panics (x : Exit) (name : String) (cyccnt : Nat)
    (rest : List Sample) :
    wcet_analysis ((.Exit x, name, cyccnt) :: rest) =
      .error .panicEmptyStack := by
  have h : 2 * (((Breakpoint.Exit x, name, cyccnt) :: rest).length) + 2 =
      (2 * rest.length + 3) + 1 := by
    simp [List.length_cons]
    ring
  simp only [wcet_analysis, h, wcet_rec]

/-! ## Claims C3, C7 about the response-time analyzer -/

/-- C3 (counterexample): the claim says `B(τ)` is the maximum over
lower-priority tasks `τ'` and resources `r ∈ task_resources[τ']` with ceiling
at least `τ`'s priority.  On the concrete instance — `hi` locks nothing,
`mid` (equal priority) gives `r` ceiling 3, `lo` (lower priority) holds `r`
for 50 cycles — that maximum is 50, but the code iterates over
`task_resources[τ]` (the analyzed task's own set, here empty) and returns 0. -/
theorem C3_blocking_counterexample :
    blocking_time c3_hi c3_tasks c3_priorities c3_task_resources ≠
      .ok (blocking_time_claimed c3_hi c3_tasks c3_priorities c3_task_resources) ∧
    blocking_time c3_hi c3_tasks c3_priorities c3_task_resources = .ok 0 ∧
    blocking_time_claimed c3_hi c3_tasks c3_priorities c3_task_resources = 50 := by
  decide

/-- C7: on the Scenario E task set (`hi{p=3, T=100, D=50, C=5}`,
`lo{p=1, T=1000, D=900, C=20}`, no shared resources) the analyzer pipeline
computes `B(hi)=0`, `I(hi)=0`, `R(hi)=5` and `B(lo)=0`, `I(lo)=5`,
`R(lo)=25`. -/
theorem C7_scenarioE :
    response_time_analysis_core c7_tasks c7_traces =
      .ok [⟨"hi", 5, 5, 0, 0⟩, ⟨"lo", 25, 20, 0, 5⟩] := by decide

/-! ## Claim C9 about the DWARF range queries -/

/-- C9 (counterexample): the claim says the PC range is half-open, so an
address equal to `high_pc` is not in range; in the code both bounds are
inclusive, and the subprogram `[10,20]` reports address 20 in range. -/
theorem C9_halfopen_counterexample :
    ¬ (c9_subprogram.address_in_range 20 = true ↔
        c9_subprogram.low_pc ≤ 20 ∧ 20 < c9_subprogram.high_pc) := by decide

/-- C9 (amended): the in-range queries use closed ranges: a subprogram
reports `a` in range exactly when `low_pc ≤ a ≤ high_pc` (so `a = high_pc`
is in range), and a subroutine's `range_from_address` finds a range exactly
when one of its `(low_pc, high_pc)` pairs satisfies
`low_pc ≤ a ≤ high_pc`. -/
theorem C9_closed_ranges :
    (∀ (s : Subprogram) (a : Nat),
      s.address_in_range a = true ↔ s.low_pc ≤ a ∧ a ≤ s.high_pc) ∧
    (∀ (s : Subroutine) (a : Nat),
      (s.range_from_address a).isSome = true ↔
        ∃ lh ∈ s.ranges, lh.1 ≤ a ∧ a ≤ lh.2) := by
  constructor
  · intro s a
    simp [Subprogram.address_in_range]
  · intro s a
    rw [Subroutine.range_from_address]
    have main : ∀ (l : List (Nat × Nat)) (acc : Option (Nat × Nat)),
        (l.foldl (fun res lh =>
          if lh.1 ≤ a ∧ a ≤ lh.2 then some lh else res) acc).isSome = true ↔
          acc.isSome = true ∨ ∃ lh ∈ l, lh.1 ≤ a ∧ a ≤ lh.2 := by
      intro l
      induction l with
      | nil => simp
      | cons x xs ih =>
        intro acc
        simp only [List.foldl_cons, ih, List.mem_cons]
        by_cases hx : x.1 ≤ a ∧ a ≤ x.2
        · simp only [if_pos hx]
          constructor
          · intro _
            exact Or.inr ⟨x, Or.inl rfl, hx⟩
          · intro _
            exact Or.inl rfl
        · simp only [if_neg hx]
          constructor
          · rintro (h | ⟨lh, hmem, hcond⟩)
            · exact Or.inl h
            · exact Or.inr ⟨lh, Or.inr hmem, hcond⟩
          · rintro (h | ⟨lh, hmem | hmem, hcond⟩)
            · exact Or.inl h
            · exact absurd hcond (by rw [hmem]; exact hx)
            · exact Or.inr ⟨lh, hmem, hcond⟩
    rw [main]
    simp

/-! ## Claim C10 about the measurement loop -/

/-- C10: the name refinement of the measurement loop requires a previously
pushed sample.  On an `InsideTask` or `InsideLock` marker with an empty
measurement list, `handle_breakpoint` panics (the `measurements.pop().unwrap()`
of the source, embedded as the distinguished `panicEmptyMeasurements`
outcome) instead of returning an error; with a nonempty list it pops the most
recently pushed sample `(b, _, u)` and re-pushes `(b, resolved_name, u)` —
only the name field changes, and no other sample is touched. -/
theorem C10_name_refinement :
    (∀ (tn ln : String) (v : Option Subroutine) (hw : Nat),
      Hardware.handle_breakpoint (.Other .InsideTask) tn ln v [] hw =
        .error .panicEmptyMeasurements ∧
      Hardware.handle_breakpoint (.Other .InsideLock) tn ln v [] hw =
        .error .panicEmptyMeasurements) ∧
    (∀ (tn ln : String) (v : Option Subroutine) (hw : Nat)
        (b : Hardware.Breakpoint) (n : String) (u : Nat)
        (rest : List Hardware.MeasurementResult),
      Hardware.handle_breakpoint (.Other .InsideTask) tn ln v
          ((b, n, u) :: rest) hw =
        .ok (.Continue, (b, tn, u) :: rest, hw) ∧
      Hardware.handle_breakpoint (.Other .InsideLock) tn ln v
          ((b, n, u) :: rest) hw =
        .ok (.Continue, (b, ln, u) :: rest, hw)) := by
  exact ⟨fun _ _ _ _ => ⟨rfl, rfl⟩, fun _ _ _ _ _ _ _ _ => ⟨rfl, rfl⟩⟩

/-! ## Claim C8 about the priority ceilings -/

/-- C8 (counterexample): the claim asserts `priorities[r] ≥ τ.priority`
whenever `r ∈ task_resources[τ]`.  When a task named like the resource is
processed after the ceiling was raised, its unconditional
`priorities.insert(task.name, task.priority)` overwrites the ceiling: here
`A` (priority 5) uses resource `x`, the later task `x` has priority 2, and
the final map gives `x` priority 2 < 5. -/
theorem C8_ceiling_counterexample :
    c8_taskA ∈ c8_tasks ∧
    "x" ∈ (map_get c8_task_resources c8_taskA.name).getD [] ∧
    map_get (get_priorites c8_tasks c8_task_resources) "x" = some 2 ∧
    ¬ c8_taskA.priority ≤ 2 := by decide

/-- Lookup after insert at the same key. -/
theorem map_get_insert_self {α : Type} (m : List (String × α)) (k : String)
    (v : α) : map_get (map_insert m k v) k = some v := by
  induction m with
  | nil => simp [map_insert, map_get]
  | cons p rest ih =>
    obtain ⟨k1, v1⟩ := p
    by_cases h : k1 = k
    · simp [map_insert, h, map_get]
    · simp [map_insert, h, map_get, ih]

/-- Lookup after insert at a different key. -/
theorem map_get_insert_ne {α : Type} (m : List (String × α)) (k k1 : String)
    (v : α) (h : k1 ≠ k) :
    map_get (map_insert m k v) k1 = map_get m k1 := by
  have hkk1 : ¬ k = k1 := fun hk => h hk.symm
  induction m with
  | nil => simp [map_insert, map_get, hkk1]
  | cons p rest ih =>
    obtain ⟨k2, v2⟩ := p
    by_cases h2 : k2 = k
    · subst h2
      simp [map_insert, map_get, hkk1]
    · simp [map_insert, h2, map_get, ih]

/-- The resource loop of `get_priorites` never lowers an existing entry. -/
theorem get_priorites_resources_mono (rs : List String) (tp : Nat) :
    ∀ (prior : Priorities) (r : String) (p : Nat),
      map_get prior r = some p →
      ∃ q, map_get (get_priorites_resources rs tp prior) r = some q ∧ p ≤ q := by
  induction rs with
  | nil =>
    intro prior r p h
    exact ⟨p, h, le_refl p⟩
  | cons x rest ih =>
    intro prior r p h
    rw [get_priorites_resources]
    by_cases hxr : x = r
    · subst hxr
      rw [h]
      by_cases htp : tp > p
      · obtain ⟨q, hq, hle⟩ := ih (map_insert prior x tp) x tp
          (map_get_insert_self prior x tp)
        exact ⟨q, by simpa [htp] using hq, le_trans (Nat.le_of_lt htp) hle⟩
      · obtain ⟨q, hq, hle⟩ := ih prior x p h
        exact ⟨q, by simpa [htp] using hq, hle⟩
    · have hpres : ∀ v, map_get (map_insert prior x v) r = some p := by
        intro v
        rw [map_get_insert_ne prior x r v (fun hk => hxr hk.symm)]
        exact h
      cases hmx : map_get prior x with
      | none =>
        obtain ⟨q, hq, hle⟩ := ih (map_insert prior x tp) r p (hpres tp)
        exact ⟨q, hq, hle⟩
      | some priority =>
        by_cases htp : tp > priority
        · obtain ⟨q, hq, hle⟩ := ih (map_insert prior x tp) r p (hpres tp)
          exact ⟨q, by simpa [htp] using hq, hle⟩
        · obtain ⟨q, hq, hle⟩ := ih prior r p h
          exact ⟨q, by simpa [htp] using hq, hle⟩

/-- The resource loop of `get_priorites` raises every listed resource to at
least the task's priority. -/
theorem get_priorites_resources_sets (rs : List String) (tp : Nat) :
    ∀ (prior : Priorities) (r : String), r ∈ rs →
      ∃ q, map_get (get_priorites_resources rs tp prior) r = some q ∧ tp ≤ q := by
  induction rs with
  | nil =>
    intro prior r h
    exact absurd h (List.not_mem_nil r)
  | cons x rest ih =>
    intro prior r hr
    rw [get_priorites_resources]
    by_cases hxr : x = r
    · subst hxr
      cases hmx : map_get prior x with
      | none =>
        obtain ⟨q, hq, hle⟩ := get_priorites_resources_mono rest tp
          (map_insert prior x tp) x tp (map_get_insert_self prior x tp)
        exact ⟨q, hq, hle⟩
      | some priority =>
        by_cases htp : tp > priority
        · obtain ⟨q, hq, hle⟩ := get_priorites_resources_mono rest tp
            (map_insert prior x tp) x tp (map_get_insert_self prior x tp)
          exact ⟨q, by simpa [htp] using hq, hle⟩
        · obtain ⟨q, hq, hle⟩ := get_priorites_resources_mono rest tp
            prior x priority hmx
          exact ⟨q, by simpa [htp] using hq,
            le_trans (Nat.le_of_not_lt htp) hle⟩
    · have hr1 : r ∈ rest := by
        cases List.mem_cons.mp hr with
        | inl h => exact absurd h.symm hxr
        | inr h => exact h
      cases hmx : map_get prior x with
      | none => exact ih (map_insert prior x tp) r hr1
      | some priority =>
        by_cases htp : tp > priority
        · have := ih (map_insert prior x tp) r hr1
          simpa [htp] using this
        · have := ih prior r hr1
          simpa [htp] using this

/-- The task loop of `get_priorites` never lowers the entry of a name that
is not a task name. -/
theorem get_priorites_loop_mono (tasks : List Task) (tr : TaskResources) :
    ∀ (prior : Priorities) (r : String) (p : Nat),
      (∀ t ∈ tasks, t.name ≠ r) → map_get prior r = some p →
      ∃ q, map_get (get_priorites_loop tasks tr prior) r = some q ∧ p ≤ q := by
  induction tasks with
  | nil =>
    intro prior r p _ h
    exact ⟨p, h, le_refl p⟩
  | cons t rest ih =>
    intro prior r p hname h
    rw [get_priorites_loop]
    have hget1 : map_get (map_insert prior t.name t.priority) r = some p := by
      rw [map_get_insert_ne prior t.name r t.priority
        (fun hk => hname t (List.mem_cons_self t rest) hk.symm)]
      exact h
    have hnr : ∀ t1 ∈ rest, t1.name ≠ r :=
      fun t1 ht1 => hname t1 (List.mem_cons_of_mem t ht1)
    cases hset : map_get tr t.name with
    | none => exact ih (map_insert prior t.name t.priority) r p hnr hget1
    | some set =>
      obtain ⟨q1, hq1, hle1⟩ := get_priorites_resources_mono set t.priority
        (map_insert prior t.name t.priority) r p hget1
      obtain ⟨q, hq, hle⟩ := ih _ r q1 hnr hq1
      exact ⟨q, hq, le_trans hle1 hle⟩

/-- Main induction for the amended ceiling claim: once the analyzed task is
processed, the resource's entry is at least that task's priority, and the
remaining iterations never lower it. -/
theorem get_priorites_loop_ceiling (tasks : List Task) (tr : TaskResources) :
    ∀ (prior : Priorities) (task : Task) (r : String),
      task ∈ tasks → r ∈ (map_get tr task.name).getD [] →
      (∀ t ∈ tasks, t.name ≠ r) →
      ∃ p, map_get (get_priorites_loop tasks tr prior) r = some p ∧
        task.priority ≤ p := by
  induction tasks with
  | nil =>
    intro prior task r htask _ _
    exact absurd htask (List.not_mem_nil task)
  | cons t rest ih =>
    intro prior task r htask hr hname
    have hnr : ∀ t1 ∈ rest, t1.name ≠ r :=
      fun t1 ht1 => hname t1 (List.mem_cons_of_mem t ht1)
    cases List.mem_cons.mp htask with
    | inl heq =>
      subst heq
      rw [get_priorites_loop]
      cases hset : map_get tr task.name with
      | none => simp [hset] at hr
      | some set =>
        have hrset : r ∈ set := by simpa [hset] using hr
        obtain ⟨q0, hq0, hle0⟩ := get_priorites_resources_sets set
          task.priority (map_insert prior task.name task.priority) r hrset
        obtain ⟨q, hq, hle⟩ := get_priorites_loop_mono rest tr _ r q0 hnr hq0
        exact ⟨q, hq, le_trans hle0 hle⟩
    | inr hmem =>
      rw [get_priorites_loop]
      cases hset : map_get tr t.name with
      | none => exact ih _ task r hmem hr hnr
      | some set => exact ih _ task r hmem hr hnr

/-- C8 (amended): for every task `τ` in the task list and resource
`r ∈ task_resources[τ]`, provided no task shares the resource's name, the
priorities map computed by `get_priorites` assigns `r` a ceiling priority
at least `τ.priority`. -/
theorem C8_ceiling_amended (tasks : List Task) (tr : TaskResources)
    (task : Task) (r : String) (htask : task ∈ tasks)
    (hr : r ∈ (map_get tr task.name).getD [])
    (hname : ∀ t ∈ tasks, t.name ≠ r) :
    ∃ p, map_get (get_priorites tasks tr) r = some p ∧ task.priority ≤ p :=
  get_priorites_loop_ceiling tasks tr [] task r htask hr hname

/-- C8 (witness): on the one-task instance `A` (priority 5) using resource
`x`, the amended theorem yields a ceiling of at least 5. -/
theorem C8_ceiling_amended_witness :
    ∃ p, map_get (get_priorites c8w_tasks c8_task_resources) "x" = some p ∧
      c8_taskA.priority ≤ p :=
  C8_ceiling_amended c8w_tasks c8_task_resources c8_taskA "x" (by decide)
    (by decide) (by decide)

/-! ## Claim C6 about the deadline check -/

/-- The summation loop of `preemption_rec` only adds to its accumulator. -/
theorem preemption_sum_le (ip : Priorities) (task_prio prev_rt : Nat) :
    ∀ (tasks : List Task) (acc s : Nat),
      preemption_sum tasks ip task_prio prev_rt acc = .ok s → acc ≤ s := by
  intro tasks
  induction tasks with
  | nil =>
    intro acc s h
    rw [preemption_sum] at h
    cases h
    exact le_refl _
  | cons t ts ih =>
    intro acc s h
    rw [preemption_sum] at h
    split at h
    · split at h
      · split at h
        · cases h
        · exact le_trans (Nat.le_add_right acc _) (ih _ s h)
      · exact ih acc s h
    · exact ih acc s h

/-- A successful body computation is at least `wcet + blocking_time`. -/
theorem current_rt_of_ge (task : Task) (tasks : List Task) (ip : Priorities)
    (tr : TaskResources) (prev_rt cur w b : Nat)
    (h : current_rt_of task tasks ip tr prev_rt = .ok cur)
    (hw : wcet task = .ok w) (hb : blocking_time task tasks ip tr = .ok b) :
    w + b ≤ cur := by
  rw [current_rt_of, hw, hb] at h
  exact preemption_sum_le ip _ prev_rt tasks (w + b) cur h

/-- A value returned by `preemption_rec` passed the deadline guard and is the
output of a body computation. -/
theorem preemption_rec_ok (task : Task) (tasks : List Task) (ip : Priorities)
    (tr : TaskResources) :
    ∀ (fuel prev_rt v : Nat),
      preemption_rec fuel task tasks ip tr prev_rt = .ok v →
      v ≤ task.deadline ∧
        ∃ prev1, current_rt_of task tasks ip tr prev1 = .ok v := by
  intro fuel
  induction fuel with
  | zero =>
    intro prev_rt v h
    rw [preemption_rec] at h
    cases h
  | succ fuel1 ih =>
    intro prev_rt v h
    rw [preemption_rec] at h
    split at h
    · cases h
    · rename_i cur hcrt
      split at h
      · cases h
      · rename_i hd
        split at h
        · cases h
          exact ⟨Nat.le_of_not_lt hd, prev_rt, hcrt⟩
        · exact ih cur v h

/-- A successful `preemption` call bounds the response time by the
deadline. -/
theorem preemption_ok_bound (task : Task) (tasks : List Task)
    (ip : Priorities) (tr : TaskResources) (i c b : Nat)
    (h : preemption task tasks ip tr = .ok i) (hw : wcet task = .ok c)
    (hb : blocking_time task tasks ip tr = .ok b) :
    c + b + i ≤ task.deadline := by
  simp only [preemption, hw, hb] at h
  cases hrec : preemption_rec (task.deadline + 2) task tasks ip tr (c + b) with
  | error err =>
    simp only [hrec] at h
    cases h
  | ok premp =>
    simp only [hrec] at h
    cases h
    obtain ⟨hd, prev1, hcrt⟩ := preemption_rec_ok task tasks ip tr _ _ _ hrec
    have hge : c + b ≤ premp := current_rt_of_ge task tasks ip tr prev1
      premp c b hcrt hw hb
    calc c + b + (premp - (c + b)) = premp := Nat.add_sub_cancel' hge
    _ ≤ task.deadline := hd

/-- Every row of a successful `run_analysis_loop` respects its task's
deadline. -/
theorem run_analysis_loop_deadline (all : List Task) (p : Priorities)
    (tr : TaskResources) :
    ∀ (rem : List Task) (res : List AnalysisResult),
      run_analysis_loop all rem p tr = .ok res →
      ∀ pr ∈ res.zip rem, pr.1.response_time ≤ pr.2.deadline := by
  intro rem
  induction rem with
  | nil =>
    intro res h pr hpr
    rw [run_analysis_loop] at h
    cases h
    simp at hpr
  | cons task rest ih =>
    intro res h pr hpr
    rw [run_analysis_loop] at h
    split at h
    · cases h
    · rename_i c hw
      split at h
      · cases h
      · rename_i b hb
        split at h
        · cases h
        · rename_i i hp
          split at h
          · cases h
          · rename_i res1 hrest
            cases h
            rw [List.zip_cons_cons] at hpr
            cases List.mem_cons.mp hpr with
            | inl heq =>
              subst heq
              exact preemption_ok_bound task all p tr i c b hp hw hb
            | inr hmem => exact ih res1 hrest pr hmem

/-- C6: whenever `run_analysis` returns a result list, every row's
`response_time = C + B + I` is at most the corresponding task's deadline;
and whenever the fixed-point body produces an iterate above the deadline,
`preemption_rec` fails with the `deadlineExceeded` error instead of
returning a result. -/
theorem C6_deadline :
    (∀ (tasks : List Task) (p : Priorities) (tr : TaskResources)
      (res : List AnalysisResult),
      run_analysis tasks p tr = .ok res →
      ∀ pr ∈ res.zip tasks, pr.1.response_time ≤ pr.2.deadline) ∧
    (∀ (task : Task) (tasks : List Task) (p : Priorities) (tr : TaskResources)
      (prev_rt fuel cur : Nat),
      current_rt_of task tasks p tr prev_rt = .ok cur →
      task.deadline < cur →
      preemption_rec (fuel + 1) task tasks p tr prev_rt =
        .error .deadlineExceeded) := by
  constructor
  · intro tasks p tr res h
    exact run_analysis_loop_deadline tasks p tr tasks res h
  · intro task tasks p tr prev_rt fuel cur hcrt hd
    rw [preemption_rec]
    simp only [hcrt]
    rw [if_pos hd]

/-- C6 (witness): on the Scenario E data the `hi` row's response time 5 is
within its deadline 50, and on a task with WCET 5 and deadline 3 the first
iterate (5) makes `preemption_rec` fail with `deadlineExceeded`. -/
theorem C6_deadline_witness :
    ((⟨"hi", 5, 5, 0, 0⟩ : AnalysisResult),
      (⟨"hi", 3, 50, 100, some c7_hi_trace⟩ : Task)).1.response_time ≤
      ((⟨"hi", 5, 5, 0, 0⟩ : AnalysisResult),
        (⟨"hi", 3, 50, 100, some c7_hi_trace⟩ : Task)).2.deadline ∧
    preemption_rec 1 c6w_task [c6w_task] c6w_priorities [] 0 =
      .error .deadlineExceeded :=
  ⟨C6_deadline.1 c7_tasks_assigned c7_priorities c7_task_resources
      [⟨"hi", 5, 5, 0, 0⟩, ⟨"lo", 25, 20, 0, 5⟩] (by decide) _ (by decide),
    C6_deadline.2 c6w_task [c6w_task] c6w_priorities [] 0 0 5 (by decide)
      (by decide)⟩

/-! ## Claim C3 (amended): the blocking-time fold equals the declarative
maximum -/

/-- Nat `foldr max` distributes over append. -/
theorem foldr_max_append (l1 l2 : List Nat) :
    (l1 ++ l2).foldr max 0 = max (l1.foldr max 0) (l2.foldr max 0) := by
  induction l1 with
  | nil => simp [Nat.zero_max]
  | cons a l1 ih => simp [List.foldr_cons, ih, Nat.max_assoc]

/-- The running-maximum update of the source loops is `Nat.max`. -/
theorem if_gt_max (a b : Nat) : (if b > a then b else a) = max a b := by
  by_cases h : b > a
  · rw [if_pos h, Nat.max_eq_right (Nat.le_of_lt h)]
  · rw [if_neg h, Nat.max_eq_left (Nat.le_of_not_lt h)]

mutual

/-- The recursive hold-time fold computes the declarative maximum over the
node list. -/
theorem max_time_hold_resource_eq (t : Trace) (r : String) :
    max_time_hold_resource t r = max_hold t r := by
  cases t with
  | mk name ttype start inner «end» =>
    rw [max_time_hold_resource, max_hold, trace_nodes,
      max_time_hold_resource_list_eq inner r]
    by_cases h : name = r
    · simp [h, List.filter_cons, Trace.name, Trace.start, Trace.«end», max_hold]
    · simp [h, List.filter_cons, Trace.name, Trace.start, Trace.«end», max_hold,
        Nat.zero_max]

/-- List version of `max_time_hold_resource_eq`, with the accumulator made
explicit. -/
theorem max_time_hold_resource_list_eq (l : List Trace) (r : String) :
    ∀ acc, max_time_hold_resource_list l r acc =
      max acc ((((trace_nodes_list l).filter (fun n => n.name = r)).map
        (fun n => n.«end» - n.start)).foldr max 0) := by
  cases l with
  | nil =>
    intro acc
    rw [max_time_hold_resource_list, trace_nodes_list]
    simp
  | cons t ts =>
    intro acc
    rw [max_time_hold_resource_list, trace_nodes_list,
      max_time_hold_resource_list_eq ts r, max_time_hold_resource_eq t r,
      if_gt_max, List.filter_append, List.map_append, foldr_max_append,
      max_hold, Nat.max_assoc]

end

/-- The inner loop of `blocking_time`, for one resource, computes the
declarative maximum over the admissible lower-priority tasks. -/
theorem blocking_time_tasks_eq (r : String) (ip : Priorities)
    (task_prio : Nat) :
    ∀ (tasks : List Task), (∀ t ∈ tasks, t.trace ≠ none) → ∀ acc,
      blocking_time_tasks r tasks ip task_prio acc =
        .ok (max acc
          ((tasks.filterMap (blocking_candidate ip task_prio r)).foldr max 0)) := by
  intro tasks
  induction tasks with
  | nil =>
    intro _ acc
    rw [blocking_time_tasks]
    simp
  | cons t ts ih =>
    intro h acc
    have ht : t.trace ≠ none := h t (List.mem_cons_self t ts)
    have hts : ∀ t1 ∈ ts, t1.trace ≠ none :=
      fun t1 ht1 => h t1 (List.mem_cons_of_mem t ht1)
    rw [blocking_time_tasks]
    cases hgt : map_get ip t.name with
    | none =>
      have hhead : blocking_candidate ip task_prio r t = none := by
        simp [blocking_candidate, hgt]
      simp only [List.filterMap_cons, hhead, hgt]
      exact ih hts acc
    | some t_prio =>
      cases hgr : map_get ip r with
      | none =>
        have hhead : blocking_candidate ip task_prio r t = none := by
          simp [blocking_candidate, hgt, hgr]
        simp only [List.filterMap_cons, hhead, hgt, hgr]
        exact ih hts acc
      | some r_ceil =>
        by_cases hcond : t_prio < task_prio ∧ r_ceil ≥ task_prio
        · cases htr : t.trace with
          | none => exact absurd htr ht
          | some trc =>
            have hhead : blocking_candidate ip task_prio r t =
                some (max_hold trc r) := by
              simp [blocking_candidate, hgt, hgr, htr, hcond]
            simp only [List.filterMap_cons, hhead, hgt, hgr, htr, if_pos hcond]
            show blocking_time_tasks r ts ip task_prio
                (if max_time_hold_resource trc r > acc then
                  max_time_hold_resource trc r
                else acc) = _
            rw [ih hts, if_gt_max, max_time_hold_resource_eq trc r,
              List.foldr_cons, Nat.max_assoc]
        · have hhead : blocking_candidate ip task_prio r t = none := by
            cases htr : t.trace with
            | none => simp [blocking_candidate, hgt, hgr, htr]
            | some trc => simp [blocking_candidate, hgt, hgr, htr, hcond]
          simp only [List.filterMap_cons, hhead, hgt, hgr, if_neg hcond]
          exact ih hts acc

/-- The outer loop of `blocking_time` computes the declarative maximum over
all resource/task pairs. -/
theorem blocking_time_resources_eq (ip : Priorities) (task_prio : Nat)
    (tasks : List Task) (h : ∀ t ∈ tasks, t.trace ≠ none) :
    ∀ (rs : List String) (acc : Nat),
      blocking_time_resources rs tasks ip task_prio acc =
        .ok (max acc ((rs.flatMap (fun r =>
          tasks.filterMap (blocking_candidate ip task_prio r))).foldr max 0)) := by
  intro rs
  induction rs with
  | nil =>
    intro acc
    rw [blocking_time_resources]
    simp
  | cons r rest ih =>
    intro acc
    rw [blocking_time_resources]
    simp only [blocking_time_tasks_eq r ip task_prio tasks h acc,
      List.flatMap_cons, foldr_max_append, ih, Nat.max_assoc]

/-- C3 (amended): provided every task carries a trace, `B(τ)` equals the
maximum, over all tasks `τ'` of strictly lower mapped priority and all
resources `r` in `task_resources[τ]` (the analyzed task's own resource set)
whose mapped ceiling is at least `τ`'s mapped priority, of the longest
`end − start` of any node named `r` anywhere in `τ'`'s trace tree; it is 0
when no such pair exists. -/
theorem C3_blocking_amended (task : Task) (tasks : List Task)
    (ip : Priorities) (tr : TaskResources)
    (h : ∀ t ∈ tasks, t.trace ≠ none) :
    blocking_time task tasks ip tr =
      .ok (blocking_time_spec task tasks ip tr) := by
  rw [blocking_time, blocking_time_spec,
    blocking_time_resources_eq ip ((map_get ip task.name).getD 0) tasks h
      ((map_get tr task.name).getD []) 0]
  rw [Nat.zero_max]

/-- C3 (witness): on the blocking scenario the amended equality is applied to
`mid` (its own resource set is `{r}`, and `lo` of lower priority holds `r`
for 50 cycles), giving `B(mid) = 50`. -/
theorem C3_blocking_amended_witness :
    blocking_time c3_mid c3_tasks c3_priorities c3_task_resources =
      .ok (blocking_time_spec c3_mid c3_tasks c3_priorities c3_task_resources) ∧
    blocking_time_spec c3_mid c3_tasks c3_priorities c3_task_resources = 50 :=
  ⟨C3_blocking_amended c3_mid c3_tasks c3_priorities c3_task_resources
      (by decide),
    by decide⟩

end Rauk
